import Mathlib

/-!
Verification of the vislog course-entry parsing core.

This file gives a shallow embedding, in Lean, of the parsing core of the
vislog repository and proves (or refutes) the frozen specification claims
about it.  The embedded functions mirror, item by item, the following Rust
sources:

* `src/parsing/guid.rs` — `GUID::try_from` and `hex_to_num`;
* `vislog-core/src/parsing/courses.rs` — the course-entry grouping state
  machine (`CoursesParser::parse_entry`, `CoursesParser::finish`,
  `CoursesParser::parse`), the entry classifier
  (`ParsedCourseEntry::try_from`) and the credits helper
  (`parse_course_credits`).

Rust strings are modelled as `List Char` (a `String` in Lean carries the
same `List Char` as `.data`); `str::len`, which counts UTF-8 bytes, is
modelled by `utf8Len` below.  Fallible Rust code returns `Except`;
code paths that panic in Rust (integer-underflow or non-boundary byte
slicing) are modelled with `Option`, `none` standing for a panic.
-/

namespace Vislog

/-- Number of bytes of the UTF-8 encoding of one character.  Models the
contribution of a `char` to Rust's `str::len`. -/
def byteSize (c : Char) : Nat :=
  if c.toNat ≤ 0x7F then 1
  else if c.toNat ≤ 0x7FF then 2
  else if c.toNat ≤ 0xFFFF then 3
  else 4

/-- UTF-8 byte length of a string, i.e. Rust's `str::len`. -/
def utf8Len (s : List Char) : Nat := (s.map byteSize).sum

/-- `GUID` from `src/parsing/guid.rs`: a 16-byte identifier.  The Rust
`[u8; 16]` is modelled as a list of byte values. -/
structure Guid where
  inner : List Nat
deriving DecidableEq, Repr

/-- `GUIDParsingError` from `src/parsing/guid.rs`. -/
inductive GUIDParsingError where
  | TooShort
  | TooLong
  | InvalidCharacter
deriving DecidableEq, Repr

/-- `hex_to_num` from `src/parsing/guid.rs`: hex digit to value; characters
above ASCII 127 and non-hex ASCII characters map to `none`. -/
def hex_to_num (c : Char) : Option Nat :=
  if c.toNat > 127 then none
  else if '0' ≤ c ∧ c ≤ '9' then some (c.toNat - 48)
  else if 'a' ≤ c ∧ c ≤ 'f' then some (c.toNat - 97 + 10)
  else if 'A' ≤ c ∧ c ≤ 'F' then some (c.toNat - 65 + 10)
  else none

/-- One iteration of the inner `while byte_index < 2` loop of
`GUID::try_from`: pull characters off the stream, skipping `'-'`, until a
hex digit is found (returning it and the remaining stream), a non-hex
character is hit (`InvalidCharacter`), or the stream ends (`TooShort`). -/
def readNibble : List Char → Except GUIDParsingError (Nat × List Char)
  | [] => .error .TooShort
  | c :: rest =>
    if c = '-' then readNibble rest
    else
      match hex_to_num c with
      | some n => .ok (n, rest)
      | none => .error .InvalidCharacter

/-- The `for i in 0..16` loop of `GUID::try_from`: read `n` bytes, each
assembled from two hex digits, most-significant nibble first
(`byte |= n << 4 * (byte_index ^ 1)`). -/
def readBytes : Nat → List Char → Except GUIDParsingError (List Nat × List Char)
  | 0, cs => .ok ([], cs)
  | n + 1, cs => do
    let (hi, cs) ← readNibble cs
    let (lo, cs) ← readNibble cs
    let (bs, cs) ← readBytes n cs
    .ok ((hi * 16 + lo) :: bs, cs)

/-- `GUID::try_from(&str)` from `src/parsing/guid.rs`: length checks are on
the UTF-8 byte length (`s.len()` in Rust), then 16 bytes are accumulated
from the character stream; characters left over after the 16th byte are
never examined. -/
def GUID.tryFrom (s : List Char) : Except GUIDParsingError Guid :=
  if utf8Len s < 32 then .error .TooShort
  else if utf8Len s > 36 then .error .TooLong
  else
    match readBytes 16 s with
    | .ok (bytes, _) => .ok ⟨bytes⟩
    | .error e => .error e

/-- The byte list denoted by an even-length hex-digit string: digits are
paired, most-significant nibble first. -/
def pairBytes : List Char → List Nat
  | c1 :: c2 :: rest => ((hex_to_num c1).getD 0 * 16 + (hex_to_num c2).getD 0) :: pairBytes rest
  | _ => []

/-- Insert `'-'` separators after positions 8, 12, 16 and 20 of a string
(the canonical 8-4-4-4-12 GUID grouping). -/
def hyphenate (s : List Char) : List Char :=
  s.take 8 ++ '-' :: (s.drop 8).take 4 ++ '-' :: (s.drop 12).take 4
    ++ '-' :: (s.drop 16).take 4 ++ '-' :: s.drop 20

/-- Number of hex digits in a string (characters accepted by `hex_to_num`). -/
def hexCount (l : List Char) : Nat :=
  (l.filter (fun c => (hex_to_num c).isSome)).length

/-! ## Data model (`vislog-core/src/lib.rs`) -/

/-- `Operator` from `vislog-core/src/parsing/courses.rs`. -/
inductive Operator where
  | And
  | Or
deriving DecidableEq, Repr

/-- `Course` from `vislog-core/src/lib.rs`.  Note that `number` is a
`String` field there (the `.parse()` in the classifier resolves to the
infallible `String` instance). -/
structure Course where
  url : String
  path : String
  guid : Guid
  name : Option String
  number : String
  subject_name : Option String
  subject_code : String
  credits : Nat × Option Nat
deriving DecidableEq, Repr

/-- `Label` from `vislog-core/src/lib.rs`. -/
structure Label where
  url : String
  guid : Guid
  name : String
  number : Option String
  subject_code : Option String
  credits : Nat × Option Nat
deriving DecidableEq, Repr

/-- `CourseEntry` from `vislog-core/src/lib.rs`; the `CourseEntries`
newtype over `Vec<CourseEntry>` is flattened to `List CourseEntry`. -/
inductive CourseEntry where
  | And (entries : List CourseEntry)
  | Or (entries : List CourseEntry)
  | Label (l : Label)
  | Course (c : Course)
deriving Repr

/-- `ParseCoursesState` from `vislog-core/src/parsing/courses.rs`. -/
inductive ParseCoursesState where
  | InitialState
  | CourseDetection
  | InitialBlankRead
  | ReadCourseNoOp
  | OperatorRead
  | ReadCourseWithOp
  | TerminatingBlankRead
  | NestingOperatorRead
  | NestedInitialBlankRead
  | NestedReadCourseNoOp
  | NestedOperatorRead
  | NestedReadCourseWithOp
  | NestedTerminatingBlankRead
deriving DecidableEq, Repr

/-- `ParsedCourseEntry` from `vislog-core/src/parsing/courses.rs`: the
classifier's output. -/
inductive ParsedCourseEntry where
  | And
  | Or
  | Blank
  | Label (l : Label)
  | Course (c : Course)
deriving DecidableEq, Repr

/-- `ParsingState` from `vislog-core/src/parsing/courses.rs`: the working
memory threaded through the state machine. -/
structure ParsingState where
  operator : Option Operator
  course_buffer : Option (List CourseEntry)
  entries : List CourseEntry

/-- `Debug` rendering of a state, as used in the `anyhow!` messages. -/
def stateName : ParseCoursesState → String
  | .InitialState => "InitialState"
  | .CourseDetection => "CourseDetection"
  | .InitialBlankRead => "InitialBlankRead"
  | .ReadCourseNoOp => "ReadCourseNoOp"
  | .OperatorRead => "OperatorRead"
  | .ReadCourseWithOp => "ReadCourseWithOp"
  | .TerminatingBlankRead => "TerminatingBlankRead"
  | .NestingOperatorRead => "NestingOperatorRead"
  | .NestedInitialBlankRead => "NestedInitialBlankRead"
  | .NestedReadCourseNoOp => "NestedReadCourseNoOp"
  | .NestedOperatorRead => "NestedOperatorRead"
  | .NestedReadCourseWithOp => "NestedReadCourseWithOp"
  | .NestedTerminatingBlankRead => "NestedTerminatingBlankRead"

/-- `Debug` rendering of an operator, as used in the `anyhow!` messages. -/
def opName : Operator → String
  | .And => "And"
  | .Or => "Or"

/-- `ParseCoursesError` from `vislog-core/src/parsing/courses.rs`.  The
`anyhow::Error` payload of `ParsingError` is modelled by its formatted
message. -/
inductive ParseCoursesError where
  | InvalidFinish (state : ParseCoursesState)
  | DoubleNesting
  | InvalidEntry (entry : ParsedCourseEntry)
  | ParserExhausted
  | ParsingError (msg : String)
deriving Repr

/-- The `anyhow!` message raised when `course_buffer` is unexpectedly
`None`. -/
def bufNoneMsg (st : ParseCoursesState) : String :=
  "course_buf should not be None at state: " ++ stateName st

/-- The `anyhow!` message raised when `operator` is unexpectedly `None`. -/
def opNoneMsg (st : ParseCoursesState) : String :=
  "operator should not be None at state: " ++ stateName st

/-- The `anyhow!` message raised when `operator` is unexpectedly set. -/
def opSomeMsg (st : ParseCoursesState) (op : Operator) : String :=
  "operator should be None at state: " ++ stateName st ++ ". Got: " ++ opName op

/-- The `anyhow!` message raised on an operator mismatch inside a flat
group. -/
def opMismatchMsg (cur new : Operator) : String :=
  "Expected " ++ opName cur ++ ", Got " ++ opName new ++ "."

/-- The `anyhow!` message raised when the last emitted entry is not a
group while appending nested sub-groups. -/
def notGroupMsg : String :=
  "Got invalid CourseEntry when getting nesting operator group"

/-- Wrap a buffer in the group node selected by an operator, as the
repeated `match operator { And => CourseEntry::And(..), .. }` blocks do. -/
def mkGroup (op : Operator) (buf : List CourseEntry) : CourseEntry :=
  match op with
  | .And => .And buf
  | .Or => .Or buf

/-! ## The grouping state machine
(`CoursesParser::parse_entry`, `vislog-core/src/parsing/courses.rs`)

Rust's `&mut self` is modelled by explicit state passing: the function
takes the machine state and the working `ParsingState` and returns their
updated values (or the error).  `Vec::push` is `++ [x]`,
`Option::get_or_insert(vec![]).push(x)` is `some (buf.getD [] ++ [x])`,
`Option::take` leaves `none` behind, and the `mem::swap` idiom in
`InitialBlankRead` / `NestedTerminatingBlankRead` is written out as the
corresponding functional update. -/
def parse_entry (st : ParseCoursesState) (ps : ParsingState) (entry : ParsedCourseEntry) :
    Except ParseCoursesError (ParseCoursesState × ParsingState) :=
  match st with
  | .InitialState =>
    match entry with
    | .And | .Or => .error (.InvalidEntry entry)
    | .Blank => .ok (.InitialBlankRead, ps)
    | .Label l =>
      .ok (.CourseDetection,
        { ps with course_buffer := some (ps.course_buffer.getD [] ++ [.Label l]) })
    | .Course c =>
      .ok (.CourseDetection,
        { ps with course_buffer := some (ps.course_buffer.getD [] ++ [.Course c]) })
  | .CourseDetection =>
    match entry with
    | .And => .ok (.OperatorRead, { ps with operator := some .And })
    | .Or => .ok (.OperatorRead, { ps with operator := some .Or })
    | .Blank => .ok (.InitialBlankRead, ps)
    | .Label l =>
      match ps.course_buffer with
      | some buf => .ok (.CourseDetection, { ps with course_buffer := some (buf ++ [.Label l]) })
      | none => .error (.ParsingError (bufNoneMsg st))
    | .Course c =>
      match ps.course_buffer with
      | some buf => .ok (.CourseDetection, { ps with course_buffer := some (buf ++ [.Course c]) })
      | none => .error (.ParsingError (bufNoneMsg st))
  | .InitialBlankRead =>
    match entry with
    | .And | .Or | .Blank => .error (.InvalidEntry entry)
    | .Label l =>
      match ps.course_buffer with
      | some buf =>
        -- the free courses in the buffer move to `entries`, the buffer
        -- restarts with the new entry
        .ok (.ReadCourseNoOp,
          { ps with entries := ps.entries ++ buf, course_buffer := some [.Label l] })
      | none =>
        -- NOTE (faithful to the source): the entry is dropped and the
        -- buffer stays `None`
        .ok (.ReadCourseNoOp, ps)
    | .Course c =>
      match ps.course_buffer with
      | some buf =>
        .ok (.ReadCourseNoOp,
          { ps with entries := ps.entries ++ buf, course_buffer := some [.Course c] })
      | none =>
        .ok (.ReadCourseNoOp, ps)
  | .ReadCourseNoOp =>
    match entry with
    | .And =>
      match ps.operator with
      | some op => .error (.ParsingError (opSomeMsg st op))
      | none => .ok (.OperatorRead, { ps with operator := some .And })
    | .Or =>
      match ps.operator with
      | some op => .error (.ParsingError (opSomeMsg st op))
      | none => .ok (.OperatorRead, { ps with operator := some .Or })
    | .Blank => .error (.InvalidEntry entry)
    | .Label l =>
      match ps.course_buffer with
      | some buf => .ok (.ReadCourseNoOp, { ps with course_buffer := some (buf ++ [.Label l]) })
      | none => .error (.ParsingError (bufNoneMsg st))
    | .Course c =>
      match ps.course_buffer with
      | some buf => .ok (.ReadCourseNoOp, { ps with course_buffer := some (buf ++ [.Course c]) })
      | none => .error (.ParsingError (bufNoneMsg st))
  | .OperatorRead =>
    match entry with
    | .And | .Or | .Blank => .error (.InvalidEntry entry)
    | .Label l =>
      match ps.course_buffer with
      | some buf => .ok (.ReadCourseWithOp, { ps with course_buffer := some (buf ++ [.Label l]) })
      | none => .error (.ParsingError (bufNoneMsg st))
    | .Course c =>
      match ps.course_buffer with
      | some buf => .ok (.ReadCourseWithOp, { ps with course_buffer := some (buf ++ [.Course c]) })
      | none => .error (.ParsingError (bufNoneMsg st))
  | .ReadCourseWithOp =>
    match entry with
    | .And =>
      match ps.operator with
      | none => .error (.ParsingError (opNoneMsg st))
      | some cur =>
        if Operator.And = cur then .ok (.OperatorRead, ps)
        else .error (.ParsingError (opMismatchMsg cur .And))
    | .Or =>
      match ps.operator with
      | none => .error (.ParsingError (opNoneMsg st))
      | some cur =>
        if Operator.Or = cur then .ok (.OperatorRead, ps)
        else .error (.ParsingError (opMismatchMsg cur .Or))
    | .Blank => .ok (.TerminatingBlankRead, ps)
    | .Label l =>
      match ps.course_buffer with
      | some buf => .ok (.ReadCourseWithOp, { ps with course_buffer := some (buf ++ [.Label l]) })
      | none => .error (.ParsingError (bufNoneMsg st))
    | .Course c =>
      match ps.course_buffer with
      | some buf => .ok (.ReadCourseWithOp, { ps with course_buffer := some (buf ++ [.Course c]) })
      | none => .error (.ParsingError (bufNoneMsg st))
  | .TerminatingBlankRead =>
    match entry with
    | .And =>
      match ps.course_buffer with
      | none => .error (.ParsingError (bufNoneMsg st))
      | some buf =>
        match ps.operator with
        | none => .error (.ParsingError (opNoneMsg st))
        | some op =>
          -- the buffered flat group becomes the first child of a new
          -- nesting group tagged by the marker just read
          .ok (.NestingOperatorRead,
            { operator := none, course_buffer := none,
              entries := ps.entries ++ [CourseEntry.And [mkGroup op buf]] })
    | .Or =>
      match ps.course_buffer with
      | none => .error (.ParsingError (bufNoneMsg st))
      | some buf =>
        match ps.operator with
        | none => .error (.ParsingError (opNoneMsg st))
        | some op =>
          .ok (.NestingOperatorRead,
            { operator := none, course_buffer := none,
              entries := ps.entries ++ [CourseEntry.Or [mkGroup op buf]] })
    | .Blank => .error (.InvalidEntry entry)
    | .Label l =>
      match ps.course_buffer with
      | none => .error (.ParsingError (bufNoneMsg st))
      | some buf =>
        match ps.operator with
        | none => .error (.ParsingError (opNoneMsg st))
        | some op =>
          .ok (.CourseDetection,
            { operator := none, course_buffer := some [.Label l],
              entries := ps.entries ++ [mkGroup op buf] })
    | .Course c =>
      match ps.course_buffer with
      | none => .error (.ParsingError (bufNoneMsg st))
      | some buf =>
        match ps.operator with
        | none => .error (.ParsingError (opNoneMsg st))
        | some op =>
          .ok (.CourseDetection,
            { operator := none, course_buffer := some [.Course c],
              entries := ps.entries ++ [mkGroup op buf] })
  | .NestingOperatorRead =>
    match entry with
    | .Blank => .ok (.NestedInitialBlankRead, ps)
    | _ => .error (.InvalidEntry entry)
  | .NestedInitialBlankRead =>
    match entry with
    | .And | .Or | .Blank => .error (.InvalidEntry entry)
    | .Label l =>
      .ok (.NestedReadCourseNoOp,
        { ps with course_buffer := some (ps.course_buffer.getD [] ++ [.Label l]) })
    | .Course c =>
      .ok (.NestedReadCourseNoOp,
        { ps with course_buffer := some (ps.course_buffer.getD [] ++ [.Course c]) })
  | .NestedReadCourseNoOp =>
    match entry with
    | .And => .ok (.NestedOperatorRead, { ps with operator := some .And })
    | .Or => .ok (.NestedOperatorRead, { ps with operator := some .Or })
    | .Blank => .error (.InvalidEntry entry)
    | .Label l =>
      .ok (.NestedReadCourseNoOp,
        { ps with course_buffer := some (ps.course_buffer.getD [] ++ [.Label l]) })
    | .Course c =>
      .ok (.NestedReadCourseNoOp,
        { ps with course_buffer := some (ps.course_buffer.getD [] ++ [.Course c]) })
  | .NestedOperatorRead =>
    match entry with
    | .And | .Or | .Blank => .error (.InvalidEntry entry)
    | .Label l =>
      match ps.course_buffer with
      | some buf =>
        .ok (.NestedReadCourseWithOp, { ps with course_buffer := some (buf ++ [.Label l]) })
      | none => .error (.ParsingError (bufNoneMsg st))
    | .Course c =>
      match ps.course_buffer with
      | some buf =>
        .ok (.NestedReadCourseWithOp, { ps with course_buffer := some (buf ++ [.Course c]) })
      | none => .error (.ParsingError (bufNoneMsg st))
  | .NestedReadCourseWithOp =>
    match entry with
    | .And | .Or => .error (.InvalidEntry entry)
    | .Blank => .ok (.NestedTerminatingBlankRead, ps)
    | .Label l =>
      match ps.course_buffer with
      | some buf =>
        .ok (.NestedReadCourseWithOp, { ps with course_buffer := some (buf ++ [.Label l]) })
      | none => .error (.ParsingError (bufNoneMsg st))
    | .Course c =>
      match ps.course_buffer with
      | some buf =>
        .ok (.NestedReadCourseWithOp, { ps with course_buffer := some (buf ++ [.Course c]) })
      | none => .error (.ParsingError (bufNoneMsg st))
  | .NestedTerminatingBlankRead =>
    match entry with
    | .And =>
      match ps.course_buffer with
      | none => .error (.ParsingError (bufNoneMsg st))
      | some buf =>
        match ps.operator with
        | none => .error (.ParsingError (opNoneMsg st))
        | some op =>
          -- append the closed sub-group to the last emitted entry (the
          -- current nest), read its operator off the nest, then compare
          -- against the marker just consumed
          match ps.entries.getLast? with
          | none => .error (.ParsingError "there should be at least one entry in entries")
          | some (.And g) =>
            if Operator.And = Operator.And then
              .ok (.NestingOperatorRead,
                { operator := none, course_buffer := none,
                  entries := ps.entries.dropLast ++ [CourseEntry.And (g ++ [mkGroup op buf])] })
            else .error .DoubleNesting
          | some (.Or g) =>
            if Operator.And = Operator.Or then
              .ok (.NestingOperatorRead,
                { operator := none, course_buffer := none,
                  entries := ps.entries.dropLast ++ [CourseEntry.Or (g ++ [mkGroup op buf])] })
            else .error .DoubleNesting
          | some _ => .error (.ParsingError notGroupMsg)
    | .Or =>
      match ps.course_buffer with
      | none => .error (.ParsingError (bufNoneMsg st))
      | some buf =>
        match ps.operator with
        | none => .error (.ParsingError (opNoneMsg st))
        | some op =>
          match ps.entries.getLast? with
          | none => .error (.ParsingError "there should be at least one entry in entries")
          | some (.And g) =>
            if Operator.Or = Operator.And then
              .ok (.NestingOperatorRead,
                { operator := none, course_buffer := none,
                  entries := ps.entries.dropLast ++ [CourseEntry.And (g ++ [mkGroup op buf])] })
            else .error .DoubleNesting
          | some (.Or g) =>
            if Operator.Or = Operator.Or then
              .ok (.NestingOperatorRead,
                { operator := none, course_buffer := none,
                  entries := ps.entries.dropLast ++ [CourseEntry.Or (g ++ [mkGroup op buf])] })
            else .error .DoubleNesting
          | some _ => .error (.ParsingError notGroupMsg)
    | .Blank => .error (.InvalidEntry entry)
    | .Label l =>
      match ps.course_buffer with
      | none => .error (.ParsingError (bufNoneMsg st))
      | some buf =>
        match ps.operator with
        | none => .error (.ParsingError (opNoneMsg st))
        | some op =>
          match ps.entries.getLast? with
          | none => .error (.ParsingError "there should be at least one entry in entries")
          | some (.And g) =>
            .ok (.CourseDetection,
              { operator := none, course_buffer := some [.Label l],
                entries := ps.entries.dropLast ++ [CourseEntry.And (g ++ [mkGroup op buf])] })
          | some (.Or g) =>
            .ok (.CourseDetection,
              { operator := none, course_buffer := some [.Label l],
                entries := ps.entries.dropLast ++ [CourseEntry.Or (g ++ [mkGroup op buf])] })
          | some _ => .error (.ParsingError notGroupMsg)
    | .Course c =>
      match ps.course_buffer with
      | none => .error (.ParsingError (bufNoneMsg st))
      | some buf =>
        match ps.operator with
        | none => .error (.ParsingError (opNoneMsg st))
        | some op =>
          match ps.entries.getLast? with
          | none => .error (.ParsingError "there should be at least one entry in entries")
          | some (.And g) =>
            .ok (.CourseDetection,
              { operator := none, course_buffer := some [.Course c],
                entries := ps.entries.dropLast ++ [CourseEntry.And (g ++ [mkGroup op buf])] })
          | some (.Or g) =>
            .ok (.CourseDetection,
              { operator := none, course_buffer := some [.Course c],
                entries := ps.entries.dropLast ++ [CourseEntry.Or (g ++ [mkGroup op buf])] })
          | some _ => .error (.ParsingError notGroupMsg)

/-- `CoursesParser::finish` from `vislog-core/src/parsing/courses.rs`:
the end-of-input action.  Note the `TerminatingBlankRead` arm, faithful to
the source: it wraps the already-emitted `entries` (not the buffered
group) in a single `And`/`Or` node and never reads `course_buffer`. -/
def finish (st : ParseCoursesState) (ps : ParsingState) :
    Except ParseCoursesError (List CourseEntry) :=
  match st with
  | .InitialState | .InitialBlankRead | .ReadCourseNoOp | .OperatorRead
  | .NestingOperatorRead | .NestedInitialBlankRead | .NestedReadCourseNoOp
  | .NestedOperatorRead => .error (.InvalidFinish st)
  | .CourseDetection =>
    match ps.course_buffer with
    | none => .error (.ParsingError (bufNoneMsg st))
    | some buf => .ok (ps.entries ++ buf)
  | .ReadCourseWithOp =>
    match ps.operator with
    | none => .error (.ParsingError (opNoneMsg st))
    | some op =>
      match ps.course_buffer with
      | none => .error (.ParsingError (bufNoneMsg st))
      | some buf => .ok (ps.entries ++ [mkGroup op buf])
  | .TerminatingBlankRead =>
    match ps.operator with
    | none => .error (.ParsingError (opNoneMsg st))
    | some op => .ok [mkGroup op ps.entries]
  | .NestedReadCourseWithOp =>
    match ps.operator with
    | none => .error (.ParsingError (opNoneMsg st))
    | some op =>
      match ps.course_buffer with
      | none => .error (.ParsingError (bufNoneMsg st))
      | some buf =>
        match ps.entries.getLast? with
        | none => .error (.ParsingError "there should be at least one entry in entries")
        | some (.And g) =>
          .ok (ps.entries.dropLast ++ [CourseEntry.And (g ++ [mkGroup op buf])])
        | some (.Or g) =>
          .ok (ps.entries.dropLast ++ [CourseEntry.Or (g ++ [mkGroup op buf])])
        | some _ => .error (.ParsingError notGroupMsg)
  | .NestedTerminatingBlankRead =>
    match ps.operator with
    | none => .error (.ParsingError (opNoneMsg st))
    | some op =>
      match ps.course_buffer with
      | none => .error (.ParsingError (bufNoneMsg st))
      | some buf =>
        match ps.entries.getLast? with
        | none => .error (.ParsingError "there should be at least one entry in entries")
        | some (.And g) =>
          .ok (ps.entries.dropLast ++ [CourseEntry.And (g ++ [mkGroup op buf])])
        | some (.Or g) =>
          .ok (ps.entries.dropLast ++ [CourseEntry.Or (g ++ [mkGroup op buf])])
        | some _ => .error (.ParsingError notGroupMsg)

/-- The `for raw_entry in …` loop of `CoursesParser::parse`, specialised to
already-classified entries: fold `parse_entry` over the input and `finish`
at the end. -/
def runEntries : ParseCoursesState → ParsingState → List ParsedCourseEntry →
    Except ParseCoursesError (List CourseEntry)
  | st, ps, [] => finish st ps
  | st, ps, e :: rest =>
    match parse_entry st ps e with
    | .error err => .error err
    | .ok (st', ps') => runEntries st' ps' rest

/-- `CoursesParser::parse` on a sequence of already-classified entries,
starting from `ParseCoursesState::InitialState` and
`ParsingState::initial()`. -/
def parseEntries (l : List ParsedCourseEntry) : Except ParseCoursesError (List CourseEntry) :=
  runEntries .InitialState ⟨none, none, []⟩ l

/-! ## The entry classifier
(`ParsedCourseEntry::try_from` and `parse_course_credits`,
`vislog-core/src/parsing/courses.rs`) -/

/-- `RawCourseEntry` from `vislog-core/src/parsing/courses.rs`. -/
structure RawCourseEntry where
  url : String
  path : String
  guid : String
  name : Option String
  number : Option String
  subject_name : Option String
  subject_code : Option String
  credits : String
  is_narrative : String
deriving DecidableEq, Repr

/-- Rust's `&guid[1..guid.len() - 1]` (strip the assumed brace wrapping).
Byte slicing panics when the string is shorter than two bytes (the range
underflows or is inverted) or when byte positions `1` or `len - 1` are not
character boundaries; `none` models the panic.  On ASCII-delimited strings
of length ≥ 2 it returns the characters strictly between the first and the
last one. -/
def sliceBraces (s : List Char) : Option (List Char) :=
  match s with
  | [] => none
  | [_] => none
  | c :: rest =>
    match rest.getLast? with
    | none => none
    | some l =>
      if byteSize c = 1 ∧ byteSize l = 1 then some rest.dropLast else none

/-- Value of a parsed `f32` literal.  `num` carries the exact rational
value of the decimal literal; IEEE-754 round-to-nearest is not modelled
(all literals appearing in the theorems below are exactly representable,
and the only consumer truncates to a `u8`). -/
inductive FloatVal where
  | nan
  | inf (neg : Bool)
  | num (q : ℚ)
deriving Repr

/-- Is `c` one of the ASCII digits `0`-`9`? -/
def isDigit (c : Char) : Bool := '0' ≤ c && c ≤ '9'

/-- Numeric value of a string of ASCII digits. -/
def digitsToNat (l : List Char) : Nat :=
  l.foldl (fun acc c => acc * 10 + (c.toNat - 48)) 0

/-- Split a list at the first element satisfying `p`, keeping neither
side's separator (Rust's `split_once`, generalised to a predicate). -/
def splitOnceBy (p : Char → Bool) : List Char → Option (List Char × List Char)
  | [] => none
  | c :: cs =>
    if p c then some ([], cs)
    else (splitOnceBy p cs).map (fun r => (c :: r.1, r.2))

/-- ASCII-case-insensitive string comparison (for the `inf`/`nan`
keywords of Rust's float grammar). -/
def eqCaseInsensitive (a b : List Char) : Bool :=
  a.map Char.toLower == b.map Char.toLower

/-- The mantissa of Rust's float grammar: `Digits ('.' Digits?)?` or
`'.' Digits`; yields its exact rational value. -/
def parseMantissa (t : List Char) : Option ℚ :=
  match splitOnceBy (fun c => c = '.') t with
  | none =>
    if t ≠ [] ∧ t.all isDigit then some (digitsToNat t : ℚ) else none
  | some (intPart, fracPart) =>
    if intPart = [] then
      if fracPart ≠ [] ∧ fracPart.all isDigit then
        some ((digitsToNat fracPart : ℚ) / (10 : ℚ) ^ fracPart.length)
      else none
    else
      if intPart.all isDigit ∧ fracPart.all isDigit then
        some ((digitsToNat intPart : ℚ)
          + (digitsToNat fracPart : ℚ) / (10 : ℚ) ^ fracPart.length)
      else none

/-- The exponent of Rust's float grammar: an optional sign then digits. -/
def parseExponent (t : List Char) : Option ℤ :=
  match t with
  | '+' :: ds => if ds ≠ [] ∧ ds.all isDigit then some (digitsToNat ds : ℤ) else none
  | '-' :: ds => if ds ≠ [] ∧ ds.all isDigit then some (-(digitsToNat ds : ℤ)) else none
  | ds => if ds ≠ [] ∧ ds.all isDigit then some (digitsToNat ds : ℤ) else none

/-- Rust's `f32::from_str` grammar: optional sign, then `inf`, `infinity`,
`nan` (ASCII-case-insensitively) or a decimal literal with optional
exponent.  Returns the exact value of the literal (see `FloatVal.num`). -/
def parseF32 (s : List Char) : Option FloatVal :=
  let signed : Bool × List Char :=
    match s with
    | '+' :: r => (false, r)
    | '-' :: r => (true, r)
    | r => (false, r)
  let neg := signed.1
  let t := signed.2
  if eqCaseInsensitive t ['i','n','f'] ∨
      eqCaseInsensitive t ['i','n','f','i','n','i','t','y'] then
    some (.inf neg)
  else if eqCaseInsensitive t ['n','a','n'] then
    some .nan
  else
    match splitOnceBy (fun c => c = 'e' ∨ c = 'E') t with
    | none =>
      (parseMantissa t).map (fun m => .num (if neg then -m else m))
    | some (mant, expPart) =>
      match parseMantissa mant, parseExponent expPart with
      | some m, some e =>
        some (.num (if neg then -(m * (10 : ℚ) ^ e) else m * (10 : ℚ) ^ e))
      | _, _ => none

/-- Rust's `f.floor() as u8`: floor, then the saturating float-to-int
cast (`NaN` to 0, negative to 0, above 255 to 255). -/
def floatToU8 : FloatVal → Nat
  | .nan => 0
  | .inf neg => if neg then 0 else 255
  | .num q => if q.floor < 0 then 0 else if q.floor > 255 then 255 else q.floor.toNat

/-- Rust's `u8::from_str`: an optional `+` sign then ASCII digits, the
value fitting in a byte. -/
def parseU8 (s : List Char) : Option Nat :=
  match s with
  | '+' :: t =>
    if t ≠ [] ∧ t.all isDigit ∧ digitsToNat t ≤ 255 then some (digitsToNat t) else none
  | t =>
    if t ≠ [] ∧ t.all isDigit ∧ digitsToNat t ≤ 255 then some (digitsToNat t) else none

/-- `parse_course_credits` from `vislog-core/src/parsing/courses.rs`: if
the string contains `'-'`, split once and parse both halves as `f32`,
flooring each to a `u8`; else parse the whole string as a `u8`.  No
relation between the two bounds is checked. -/
def parse_course_credits (credits_str : String) : Except String (Nat × Option Nat) :=
  match splitOnceBy (fun c => c = '-') credits_str.data with
  | some (lower, upper) =>
    match parseF32 lower with
    | none => .error "invalid float literal"
    | some lv =>
      match parseF32 upper with
      | none => .error "invalid float literal"
      | some uv => .ok (floatToU8 lv, some (floatToU8 uv))
  | none =>
    match parseU8 credits_str.data with
    | none => .error "invalid digit found in string"
    | some n => .ok (n, none)

/-- `Display` message of a `GUIDParsingError` (what `anyhow` records). -/
def guidErrMsg : GUIDParsingError → String
  | .TooShort => "String provided is too short"
  | .TooLong => "String provided is too long"
  | .InvalidCharacter => "String contains invalid characters"

/-- The non-narrative arm of `ParsedCourseEntry::try_from`: slice the
brace-wrapped guid (a possible panic, `none`), parse it, require `number`
(its `.parse()` resolves to the infallible `String` instance), parse the
credits, require `subject_code`, and build the `Course`. -/
def classifyCourse (e : RawCourseEntry) : Option (Except String ParsedCourseEntry) :=
  match sliceBraces e.guid.data with
  | none => none
  | some inner =>
    match GUID.tryFrom inner with
    | .error ge => some (.error (guidErrMsg ge))
    | .ok g =>
      match e.number with
      | none => some (.error "missing course number")
      | some num =>
        match parse_course_credits e.credits with
        | .error m => some (.error m)
        | .ok cr =>
          match e.subject_code with
          | none => some (.error "missing subject code")
          | some sc =>
            some (.ok (.Course ⟨e.url, e.path, g, e.name, num, e.subject_name, sc, cr⟩))

/-- `ParsedCourseEntry::try_from(RawCourseEntry)` from
`vislog-core/src/parsing/courses.rs`.  When the entry is narrative and
named, the name is interpreted as a marker (`And`, `Or`, empty = `Blank`,
anything else a `Label`); otherwise the entry must be a course.  `none`
models a panic inside the conversion (see `sliceBraces`). -/
def classify (e : RawCourseEntry) : Option (Except String ParsedCourseEntry) :=
  match e.name with
  | some n =>
    if e.is_narrative = "True" then
      match n with
      | "And" => some (.ok .And)
      | "Or" => some (.ok .Or)
      | "" => some (.ok .Blank)
      | _ =>
        match sliceBraces e.guid.data with
        | none => none
        | some inner =>
          match GUID.tryFrom inner with
          | .error ge => some (.error (guidErrMsg ge))
          | .ok g =>
            match parse_course_credits e.credits with
            | .error m => some (.error m)
            | .ok cr =>
              some (.ok (.Label ⟨e.url, g, n, e.number, e.subject_code, cr⟩))
    else classifyCourse e
  | none => classifyCourse e

/-- The `for raw_entry in …` loop of `CoursesParser::parse`: classify each
raw entry (classification failures become
`ParseCoursesError::ParsingError`, classification panics abort the whole
run as `none`), feed it to the state machine, and `finish` at the end. -/
def runRaw : ParseCoursesState → ParsingState → List RawCourseEntry →
    Option (Except ParseCoursesError (List CourseEntry))
  | st, ps, [] => some (finish st ps)
  | st, ps, r :: rest =>
    match classify r with
    | none => none
    | some (.error m) => some (.error (.ParsingError m))
    | some (.ok e) =>
      match parse_entry st ps e with
      | .error err => some (.error err)
      | .ok (st', ps') => runRaw st' ps' rest

/-- `CoursesParser::parse` from `vislog-core/src/parsing/courses.rs`, on
raw entries; `none` models a panic during classification. -/
def parse (raw_entries : List RawCourseEntry) :
    Option (Except ParseCoursesError (List CourseEntry)) :=
  runRaw .InitialState ⟨none, none, []⟩ raw_entries

/-! ## Observations on output trees used by the claims -/

mutual

/-- Pre-order sequence of the `Course`/`Label` leaves of an entry. -/
def leavesOf : CourseEntry → List CourseEntry
  | .And es => leavesList es
  | .Or es => leavesList es
  | .Label l => [.Label l]
  | .Course c => [.Course c]

/-- Pre-order sequence of the `Course`/`Label` leaves of a forest. -/
def leavesList : List CourseEntry → List CourseEntry
  | [] => []
  | e :: es => leavesOf e ++ leavesList es

end

mutual

/-- Does every `And`/`Or` node of the entry have at least one child? -/
def groupsNonempty : CourseEntry → Bool
  | .And es => !es.isEmpty && groupsNonemptyList es
  | .Or es => !es.isEmpty && groupsNonemptyList es
  | .Label _ => true
  | .Course _ => true

/-- Does every `And`/`Or` node of the forest have at least one child? -/
def groupsNonemptyList : List CourseEntry → Bool
  | [] => true
  | e :: es => groupsNonempty e && groupsNonemptyList es

end

/-- The `Course`/`Label` entries of a classified input sequence, in input
order, as the leaves they would become. -/
def inputLeaves (l : List ParsedCourseEntry) : List CourseEntry :=
  (l.map (fun e =>
    match e with
    | .Course c => [CourseEntry.Course c]
    | .Label lb => [CourseEntry.Label lb]
    | _ => [])).flatten

/-- A concrete course used by the closed counterexample theorems; the
`tag` argument only distinguishes courses from one another. -/
def sampleCourse (tag : String) : Course :=
  ⟨"url", "path", ⟨List.replicate 16 0⟩, none, tag, none, "CSC", (3, none)⟩

/-! ## Lemmas about the GUID parser -/

theorem byteSize_pos (c : Char) : 1 ≤ byteSize c := by
  unfold byteSize
  split <;> [skip; split <;> [skip; split]] <;> omega

theorem length_le_utf8Len (s : List Char) : s.length ≤ utf8Len s := by
  induction s with
  | nil => simp [utf8Len]
  | cons c cs ih =>
    have := byteSize_pos c
    simp only [utf8Len, List.map_cons, List.sum_cons, List.length_cons] at *
    omega

theorem byteSize_of_hex {c : Char} (h : (hex_to_num c).isSome) : byteSize c = 1 := by
  unfold hex_to_num at h
  by_cases hc : c.toNat > 127
  · simp [hc] at h
  · unfold byteSize
    rw [if_pos (by omega)]

theorem hex_ne_dash {c : Char} (h : (hex_to_num c).isSome) : c ≠ '-' := by
  intro he
  subst he
  simp [hex_to_num] at h

theorem utf8Len_of_hex {s : List Char} (h : ∀ c ∈ s, (hex_to_num c).isSome) :
    utf8Len s = s.length := by
  induction s with
  | nil => simp [utf8Len]
  | cons c cs ih =>
    have h1 := byteSize_of_hex (h c (by simp))
    have h2 := ih (fun x hx => h x (by simp [hx]))
    simp only [utf8Len, List.map_cons, List.sum_cons, List.length_cons] at *
    omega

theorem readNibble_dash (r : List Char) : readNibble ('-' :: r) = readNibble r := by
  simp [readNibble]

theorem readNibble_hex {c : Char} {v : Nat} (h : hex_to_num c = some v) (r : List Char) :
    readNibble (c :: r) = .ok (v, r) := by
  have hne : c ≠ '-' := hex_ne_dash (by simp [h])
  simp [readNibble, hne, h]

theorem readBytes_dash (n : Nat) (r : List Char) :
    readBytes (n + 1) ('-' :: r) = readBytes (n + 1) r := by
  simp only [readBytes, readNibble_dash]

/-- When the stream starts with `2 * n` hex digits, `readBytes n` consumes
exactly those digits and yields their byte pairing. -/
theorem readBytes_hex_prefix :
    ∀ (n : Nat) (s rest : List Char), s.length = 2 * n →
      (∀ c ∈ s, (hex_to_num c).isSome) →
      readBytes n (s ++ rest) = .ok (pairBytes s, rest) := by
  intro n
  induction n with
  | zero =>
    intro s rest hlen _
    have : s = [] := List.eq_nil_of_length_eq_zero (by omega)
    subst this
    simp [readBytes, pairBytes]
  | succ n ih =>
    intro s rest hlen hhex
    match s, hlen with
    | c1 :: c2 :: s', hlen =>
      obtain ⟨v1, hv1⟩ := Option.isSome_iff_exists.mp (hhex c1 (by simp))
      obtain ⟨v2, hv2⟩ := Option.isSome_iff_exists.mp (hhex c2 (by simp))
      have hlen' : s'.length = 2 * n := by
        simp only [List.length_cons] at hlen
        omega
      have hrec := ih s' rest hlen' (fun x hx => hhex x (by simp [hx]))
      simp only [readBytes, List.cons_append, readNibble_hex hv1, readNibble_hex hv2,
        hrec, pairBytes, hv1, hv2, Option.getD_some, bind, Except.bind]

/-- Chunked version of `readBytes_hex_prefix`: an even-length hex prefix
contributes its byte pairing and the remaining reads continue on the
rest of the stream. -/
theorem readBytes_hex_chunk :
    ∀ (m : Nat) (s : List Char), s.length = 2 * m →
      (∀ c ∈ s, (hex_to_num c).isSome) →
      ∀ (k : Nat) (rest : List Char),
        readBytes (m + k) (s ++ rest) =
          (readBytes k rest).map (fun p => (pairBytes s ++ p.1, p.2)) := by
  intro m
  induction m with
  | zero =>
    intro s hlen _ k rest
    have : s = [] := List.eq_nil_of_length_eq_zero (by omega)
    subst this
    simp only [List.nil_append, pairBytes]
    cases hres : readBytes k rest <;> simp [Except.map, hres]
  | succ m ih =>
    intro s hlen hhex k rest
    match s, hlen with
    | c1 :: c2 :: s', hlen =>
      obtain ⟨v1, hv1⟩ := Option.isSome_iff_exists.mp (hhex c1 (by simp))
      obtain ⟨v2, hv2⟩ := Option.isSome_iff_exists.mp (hhex c2 (by simp))
      have hlen' : s'.length = 2 * m := by
        simp only [List.length_cons] at hlen
        omega
      have hrec := ih s' hlen' (fun x hx => hhex x (by simp [hx])) k rest
      have harith : m + 1 + k = (m + k) + 1 := by omega
      rw [harith]
      simp only [readBytes, List.cons_append, readNibble_hex hv1, readNibble_hex hv2, hrec,
        pairBytes, hv1, hv2, Option.getD_some, bind, Except.bind]
      cases hres : readBytes k rest <;> simp [Except.map, hres]

/-- `pairBytes` distributes over appending after an even-length prefix. -/
theorem pairBytes_append :
    ∀ (s t : List Char), s.length % 2 = 0 → pairBytes (s ++ t) = pairBytes s ++ pairBytes t
  | [], t, _ => by simp [pairBytes]
  | [c], t, h => by simp at h
  | c1 :: c2 :: s', t, h => by
    have hrec := pairBytes_append s' t (by simp only [List.length_cons] at h; omega)
    simp [pairBytes, hrec]

/-- A 32-hex-digit string parses to its byte pairing, and so does its
8-4-4-4-12 hyphenated form. -/
theorem tryFrom_hex_and_hyphenated (s : List Char) (hlen : s.length = 32)
    (hhex : ∀ c ∈ s, (hex_to_num c).isSome) :
    GUID.tryFrom s = .ok ⟨pairBytes s⟩ ∧ GUID.tryFrom (hyphenate s) = .ok ⟨pairBytes s⟩ := by
  have hutf : utf8Len s = 32 := by rw [utf8Len_of_hex hhex, hlen]
  constructor
  · have hread : readBytes 16 (s ++ []) = .ok (pairBytes s, []) :=
      readBytes_hex_prefix 16 s [] (by omega) hhex
    rw [List.append_nil] at hread
    simp [GUID.tryFrom, hutf, hread]
  · -- decompose `s` into the five chunks separated by the dashes
    set A := s.take 8 with hA
    set B := (s.drop 8).take 4 with hB
    set C := (s.drop 12).take 4 with hC
    set D := (s.drop 16).take 4 with hD
    set E := s.drop 20 with hE
    have hlA : A.length = 8 := by simp [hA, hlen]
    have hlB : B.length = 4 := by simp [hB, hlen]
    have hlC : C.length = 4 := by simp [hC, hlen]
    have hlD : D.length = 4 := by simp [hD, hlen]
    have hlE : E.length = 12 := by simp [hE, hlen]
    have hxA : ∀ c ∈ A, (hex_to_num c).isSome := fun c hc => hhex c (List.take_subset _ _ hc)
    have hxB : ∀ c ∈ B, (hex_to_num c).isSome :=
      fun c hc => hhex c (List.drop_subset _ _ (List.take_subset _ _ hc))
    have hxC : ∀ c ∈ C, (hex_to_num c).isSome :=
      fun c hc => hhex c (List.drop_subset _ _ (List.take_subset _ _ hc))
    have hxD : ∀ c ∈ D, (hex_to_num c).isSome :=
      fun c hc => hhex c (List.drop_subset _ _ (List.take_subset _ _ hc))
    have hxE : ∀ c ∈ E, (hex_to_num c).isSome := fun c hc => hhex c (List.drop_subset _ _ hc)
    have hsplit : s = A ++ B ++ C ++ D ++ E := by
      have h1 : A ++ s.drop 8 = s := List.take_append_drop 8 s
      have h2 : B ++ s.drop 12 = s.drop 8 := by
        have := List.take_append_drop 4 (s.drop 8)
        rwa [List.drop_drop, show 4 + 8 = 12 from rfl] at this
      have h3 : C ++ s.drop 16 = s.drop 12 := by
        have := List.take_append_drop 4 (s.drop 12)
        rwa [List.drop_drop, show 4 + 12 = 16 from rfl] at this
      have h4 : D ++ E = s.drop 16 := by
        have := List.take_append_drop 4 (s.drop 16)
        rwa [List.drop_drop, show 4 + 16 = 20 from rfl] at this
      calc s = A ++ s.drop 8 := h1.symm
        _ = A ++ (B ++ s.drop 12) := by rw [h2]
        _ = A ++ (B ++ (C ++ s.drop 16)) := by rw [h3]
        _ = A ++ (B ++ (C ++ (D ++ E))) := by rw [h4]
        _ = A ++ B ++ C ++ D ++ E := by simp [List.append_assoc]
    have hhyp : hyphenate s = A ++ '-' :: (B ++ '-' :: (C ++ '-' :: (D ++ '-' :: E))) := by
      simp [hyphenate, hA, hB, hC, hD, hE]
    -- byte length of the hyphenated form: 32 hex digits plus 4 dashes
    have hone : ∀ c ∈ hyphenate s, byteSize c = 1 := by
      intro c hc
      rw [hhyp] at hc
      simp only [List.mem_append, List.mem_cons] at hc
      rcases hc with h | h | h | h | h | h | h | h | h
      · exact byteSize_of_hex (hxA c h)
      · subst h; rfl
      · exact byteSize_of_hex (hxB c h)
      · subst h; rfl
      · exact byteSize_of_hex (hxC c h)
      · subst h; rfl
      · exact byteSize_of_hex (hxD c h)
      · subst h; rfl
      · exact byteSize_of_hex (hxE c h)
    have hlenH : (hyphenate s).length = 36 := by
      rw [hhyp]
      simp [hlA, hlB, hlC, hlD, hlE]
    have hutfH : utf8Len (hyphenate s) = 36 := by
      have : utf8Len (hyphenate s) = (hyphenate s).length := by
        unfold utf8Len
        rw [List.map_congr_left (fun c hc => hone c hc)]
        simp
      rw [this, hlenH]
    -- run the reader through the chunks
    have stepE : readBytes 6 E = .ok (pairBytes E, []) := by
      have := readBytes_hex_prefix 6 E [] (by omega) hxE
      rwa [List.append_nil] at this
    have stepD : readBytes 8 (D ++ '-' :: E) = .ok (pairBytes D ++ pairBytes E, []) := by
      have h1 := readBytes_hex_chunk 2 D (by omega) hxD 6 ('-' :: E)
      rw [show (2 : Nat) + 6 = 8 from rfl] at h1
      rw [h1, readBytes_dash 5 E, stepE]
      rfl
    have stepC : readBytes 10 (C ++ '-' :: (D ++ '-' :: E)) =
        .ok (pairBytes C ++ (pairBytes D ++ pairBytes E), []) := by
      have h1 := readBytes_hex_chunk 2 C (by omega) hxC 8 ('-' :: (D ++ '-' :: E))
      rw [show (2 : Nat) + 8 = 10 from rfl] at h1
      rw [h1, readBytes_dash 7 _, stepD]
      rfl
    have stepB : readBytes 12 (B ++ '-' :: (C ++ '-' :: (D ++ '-' :: E))) =
        .ok (pairBytes B ++ (pairBytes C ++ (pairBytes D ++ pairBytes E)), []) := by
      have h1 := readBytes_hex_chunk 2 B (by omega) hxB 10 ('-' :: (C ++ '-' :: (D ++ '-' :: E)))
      rw [show (2 : Nat) + 10 = 12 from rfl] at h1
      rw [h1, readBytes_dash 9 _, stepC]
      rfl
    have stepA : readBytes 16 (hyphenate s) =
        .ok (pairBytes A ++ (pairBytes B ++ (pairBytes C ++ (pairBytes D ++ pairBytes E))), []) := by
      rw [hhyp]
      have h1 := readBytes_hex_chunk 4 A (by omega) hxA 12
        ('-' :: (B ++ '-' :: (C ++ '-' :: (D ++ '-' :: E))))
      rw [show (4 : Nat) + 12 = 16 from rfl] at h1
      rw [h1, readBytes_dash 11 _, stepB]
      rfl
    have hpair : pairBytes s =
        pairBytes A ++ (pairBytes B ++ (pairBytes C ++ (pairBytes D ++ pairBytes E))) := by
      rw [hsplit]
      rw [pairBytes_append (A ++ B ++ C ++ D) E (by simp [hlA, hlB, hlC, hlD]),
        pairBytes_append (A ++ B ++ C) D (by simp [hlA, hlB, hlC]),
        pairBytes_append (A ++ B) C (by simp [hlA, hlB]),
        pairBytes_append A B (by simp [hlA])]
      simp [List.append_assoc]
    simp [GUID.tryFrom, hutfH, stepA, hpair]

/-- `readNibble` on a dash-or-hex prefix followed by an invalid character:
with no hex digit left in the prefix it reports `InvalidCharacter`,
otherwise it consumes up to the first hex digit. -/
theorem readNibble_invalid (c : Char) (rest : List Char)
    (hc : hex_to_num c = none) (hcd : c ≠ '-') :
    ∀ pre : List Char, (∀ x ∈ pre, x = '-' ∨ (hex_to_num x).isSome) →
      (hexCount pre = 0 → readNibble (pre ++ c :: rest) = .error .InvalidCharacter) ∧
      (0 < hexCount pre → ∃ v pre',
        readNibble (pre ++ c :: rest) = .ok (v, pre' ++ c :: rest) ∧
        (∀ x ∈ pre', x = '-' ∨ (hex_to_num x).isSome) ∧
        hexCount pre' + 1 = hexCount pre) := by
  intro pre
  induction pre with
  | nil =>
    intro _
    refine ⟨fun _ => ?_, fun h => absurd h (by simp [hexCount])⟩
    simp [readNibble, hcd, hc]
  | cons x pre' ih =>
    intro hmem
    have hmem' : ∀ y ∈ pre', y = '-' ∨ (hex_to_num y).isSome :=
      fun y hy => hmem y (by simp [hy])
    rcases hmem x (by simp) with hx | hx
    · -- a dash is skipped and does not count
      subst hx
      have hcount : hexCount ('-' :: pre') = hexCount pre' := by
        simp [hexCount, List.filter, show hex_to_num '-' = none from rfl]
      rw [List.cons_append, readNibble_dash, hcount]
      exact ih hmem'
    · -- a hex digit is consumed
      obtain ⟨v, hv⟩ := Option.isSome_iff_exists.mp hx
      have hcount : hexCount (x :: pre') = hexCount pre' + 1 := by
        simp [hexCount, List.filter, hx]
      refine ⟨fun h0 => by omega, fun _ => ⟨v, pre', ?_, hmem', by omega⟩⟩
      rw [List.cons_append, readNibble_hex hv]

/-- When the character stream holds fewer than `2 * n` hex digits before a
character that is neither a hex digit nor a dash, `readBytes n` reports
`InvalidCharacter`. -/
theorem readBytes_invalid (c : Char) (rest : List Char)
    (hc : hex_to_num c = none) (hcd : c ≠ '-') :
    ∀ (n : Nat) (pre : List Char), (∀ x ∈ pre, x = '-' ∨ (hex_to_num x).isSome) →
      hexCount pre < 2 * n →
      readBytes n (pre ++ c :: rest) = .error .InvalidCharacter := by
  intro n
  induction n with
  | zero => intro pre _ h; omega
  | succ n ih =>
    intro pre hmem hcount
    obtain ⟨h0, hpos⟩ := readNibble_invalid c rest hc hcd pre hmem
    by_cases hz : hexCount pre = 0
    · simp only [readBytes, h0 hz, bind, Except.bind]
    · obtain ⟨v1, pre1, heq1, hmem1, hc1⟩ := hpos (by omega)
      obtain ⟨h0', hpos'⟩ := readNibble_invalid c rest hc hcd pre1 hmem1
      by_cases hz1 : hexCount pre1 = 0
      · simp only [readBytes, heq1, h0' hz1, bind, Except.bind]
      · obtain ⟨v2, pre2, heq2, hmem2, hc2⟩ := hpos' (by omega)
        have hrec := ih pre2 hmem2 (by omega)
        simp only [readBytes, heq1, heq2, hrec, bind, Except.bind]

/-! ## Lemmas about the credits parser and the classifier -/

theorem floatToU8_le (v : FloatVal) : floatToU8 v ≤ 255 := by
  cases v with
  | nan => simp [floatToU8]
  | inf neg => cases neg <;> simp [floatToU8]
  | num q =>
    simp only [floatToU8]
    split_ifs with h1 h2 <;> omega

theorem parseU8_le {s : List Char} {n : Nat} (h : parseU8 s = some n) : n ≤ 255 := by
  unfold parseU8 at h
  split at h <;> split at h <;> simp_all

/-- An unsliceable-guid-free raw entry on the course path that is missing
`number` or `subject_code` always produces a classification error. -/
theorem classifyCourse_missing_field (e : RawCourseEntry)
    (hs : (sliceBraces e.guid.data).isSome)
    (hmiss : e.number = none ∨ e.subject_code = none) :
    ∃ m, classifyCourse e = some (.error m) := by
  obtain ⟨inner, hinner⟩ := Option.isSome_iff_exists.mp hs
  cases hg : GUID.tryFrom inner with
  | error ge => exact ⟨guidErrMsg ge, by simp [classifyCourse, hinner, hg]⟩
  | ok g =>
    rcases hmiss with hn | hsc
    · exact ⟨"missing course number", by simp [classifyCourse, hinner, hg, hn]⟩
    · cases hn : e.number with
      | none => exact ⟨"missing course number", by simp [classifyCourse, hinner, hg, hn]⟩
      | some num =>
        cases hc : parse_course_credits e.credits with
        | error m => exact ⟨m, by simp [classifyCourse, hinner, hg, hn, hc]⟩
        | ok cr =>
          exact ⟨"missing subject code", by simp [classifyCourse, hinner, hg, hn, hc, hsc]⟩

/-! ## The claims -/

/-- Marker token denoting an operator. -/
def markerOf : Operator → ParsedCourseEntry
  | .And => .And
  | .Or => .Or

/-- C1: the claim states that on every successful parse the pre-order
leaves of the output equal the `Course`/`Label` entries of the input in
order.  The code violates this: on the accepted input
`[Course x, And, Course y, Blank]` the parse succeeds (`finish` in
`TerminatingBlankRead` wraps the emitted entries and drops the buffer), the
output is the single childless node `And []`, and both input courses are
missing from the leaves. -/
theorem C1_successful_parse_drops_leaves (x y : Course) :
    parseEntries [.Course x, .And, .Course y, .Blank] = .ok [.And []] ∧
    leavesList [CourseEntry.And []] = [] ∧
    inputLeaves [.Course x, .And, .Course y, .Blank] =
      [CourseEntry.Course x, CourseEntry.Course y] := by
  refine ⟨rfl, ?_, rfl⟩
  simp [leavesList, leavesOf]

/-- C2: the claim states that `[Blank, Course a, And, Course b]` parses to
`[And [Course a, Course b]]`.  The code instead drops `Course a` (the
`InitialBlankRead` arm with an empty buffer discards the entry and leaves
the buffer `None`) and then fails with the internal
`course_buf should not be None` error when `Course b` arrives in state
`OperatorRead`. -/
theorem C2_group_at_input_start_fails (a b : Course) :
    parseEntries [.Blank, .Course a, .And, .Course b] =
      .error (.ParsingError (bufNoneMsg .OperatorRead)) := rfl

/-- C3: the claim states that ending in `TerminatingBlankRead` yields the
emitted entries followed by the buffered group.  The code's `finish`
instead wraps the emitted entries themselves in a single `And`/`Or` node
and drops the buffered group: `[Course x, Blank, Course a, And, Course b,
Blank]` yields `[And [Course x]]` — the free entry `x` is demoted into a
group and the buffered `a`, `b` are lost. -/
theorem C3_terminating_blank_finish_drops_buffer (x a b : Course) :
    parseEntries [.Course x, .Blank, .Course a, .And, .Course b, .Blank] =
      .ok [.And [.Course x]] := rfl

/-- C4: the claim states that every `And`/`Or` node of a successful output
has at least one child.  The code violates this: the accepted input
`[Course x, And, Course y, Blank]` produces the childless node `And []`
(the `TerminatingBlankRead` arm of `finish` wraps the — here empty —
emitted list and drops the buffer). -/
theorem C4_empty_group_in_successful_output (x y : Course) :
    parseEntries [.Course x, .And, .Course y, .Blank] = .ok [.And []] ∧
    groupsNonemptyList [CourseEntry.And []] = false := by
  refine ⟨rfl, ?_⟩
  simp [groupsNonemptyList, groupsNonempty]

/-- C5 counterexample: parsing the empty sequence of raw entries does not
succeed, against the claim that it returns an empty `CourseEntries`. -/
theorem C5_counterexample : parse [] ≠ some (.ok []) := by
  intro h
  rw [show parse [] =
    some (Except.error (ParseCoursesError.InvalidFinish ParseCoursesState.InitialState))
    from rfl] at h
  simp at h

/-- C5 (amended): parsing the empty sequence of raw entries fails with
`InvalidFinish(InitialState)` — `InitialState` is one of the invalid
finishing states of `CoursesParser::finish`. -/
theorem C5_empty_input_invalid_finish :
    parse [] = some (.error (.InvalidFinish .InitialState)) := rfl

/-- The token sequence named by claim C6,
`B, C(a), &, C(b), B, B, C(p), |, C(q)`. -/
def c6ClaimedSeq : List ParsedCourseEntry :=
  [.Blank, .Course (sampleCourse "a"), .And, .Course (sampleCourse "b"), .Blank,
   .Blank, .Course (sampleCourse "p"), .Or, .Course (sampleCourse "q")]

/-- C6 counterexample: the sequence `B, C(a), &, C(b), B, B, C(p), |, C(q)`
claimed to return `DoubleNesting` in fact fails far earlier, with the
internal `course_buf should not be None` error (the leading `Blank` path
drops `C(a)` and leaves the buffer unset), and the error stays the same
for any continuation since the parse aborts at the fourth token. -/
theorem C6_counterexample :
    parseEntries c6ClaimedSeq = .error (.ParsingError (bufNoneMsg .OperatorRead)) ∧
    parseEntries c6ClaimedSeq ≠ .error .DoubleNesting := by
  refine ⟨rfl, fun h => ?_⟩
  rw [show parseEntries c6ClaimedSeq =
    Except.error (ParseCoursesError.ParsingError (bufNoneMsg .OperatorRead))
    from rfl] at h
  simp [bufNoneMsg] at h

/-- C6 (amended): when a nest (opened by a free entry, a flat group and a
continuation marker `X`) is being extended and the continuation marker
following the `Blank` that closes a nested sub-group differs from the
nest's operator, the parse fails with `DoubleNesting`; the inner
sub-group's own operator `Z` is irrelevant.  This is the family
`C(f), B, C(a), X, C(b), B, X, B, C(p), Z, C(q), B, Y` with `Y ≠ X`. -/
theorem C6_double_nesting_on_mismatched_continuation
    (f a b p q : Course) (X Z Y : Operator) (h : Y ≠ X) :
    parseEntries [.Course f, .Blank, .Course a, markerOf X, .Course b, .Blank,
      markerOf X, .Blank, .Course p, markerOf Z, .Course q, .Blank, markerOf Y] =
      .error .DoubleNesting := by
  cases X <;> cases Y <;> first
  | exact absurd rfl h
  | cases Z <;> rfl

/-- C6 witness: a concrete mismatched continuation (`And` nest, `Or`
continuation) is rejected with `DoubleNesting`. -/
theorem C6_double_nesting_witness :
    parseEntries [.Course (sampleCourse "f"), .Blank, .Course (sampleCourse "a"),
      markerOf .And, .Course (sampleCourse "b"), .Blank, markerOf .And, .Blank,
      .Course (sampleCourse "p"), markerOf .Or, .Course (sampleCourse "q"), .Blank,
      markerOf .Or] = .error .DoubleNesting :=
  C6_double_nesting_on_mismatched_continuation (sampleCourse "f") (sampleCourse "a")
    (sampleCourse "b") (sampleCourse "p") (sampleCourse "q") .And .Or .Or (by decide)

/-- A raw entry whose classification panics: non-narrative with an empty
`guid` string, so `&guid[1..guid.len() - 1]` underflows. -/
def c7PanicEntry : RawCourseEntry :=
  ⟨"url", "path", "", none, some "101", none, some "CS", "3", "False"⟩

/-- C7: the claim states `CoursesParser::parse` always returns a value and
never panics.  The code violates this: classifying a non-narrative entry
whose `guid` string is empty evaluates `&guid[1..guid.len() - 1]`, whose
index arithmetic underflows and panics (modelled by `none`), so `parse`
on that entry panics instead of returning `Ok` or an error. -/
theorem C7_parse_panics_on_short_guid :
    classify c7PanicEntry = none ∧ parse [c7PanicEntry] = none := ⟨rfl, rfl⟩

/-- The raw entry refuting claim C8: non-narrative, missing `number`, but
with an empty `guid` string. -/
def c8PanicEntry : RawCourseEntry :=
  ⟨"url", "path", "", none, none, none, none, "3", "False"⟩

/-- C8 counterexample: a raw entry with `is_narrative = "False"` missing
`number` does not always classify to an error value — with an empty
`guid` string the classifier panics on the guid slice before looking at
`number`, so it neither succeeds nor returns an error. -/
theorem C8_counterexample :
    classify c8PanicEntry = none ∧ ∀ m, classify c8PanicEntry ≠ some (.error m) := by
  refine ⟨rfl, fun m h => ?_⟩
  rw [show classify c8PanicEntry = none from rfl] at h
  simp at h

/-- C8 (amended): a raw entry with `is_narrative = "True"` and name
`"And"`, `"Or"` or `""` classifies to the corresponding marker whatever
every other field holds (no guid or credits parsing); and a raw entry with
`is_narrative = "False"` whose guid string is byte-sliceable (at least two
bytes, ASCII first and last) that is missing `number` or `subject_code`
classifies to an error value. -/
theorem C8_classifier_markers_and_missing_fields :
    (∀ (url path guid : String) (number sn sc : Option String) (credits : String),
      classify ⟨url, path, guid, some "And", number, sn, sc, credits, "True"⟩ =
        some (.ok .And) ∧
      classify ⟨url, path, guid, some "Or", number, sn, sc, credits, "True"⟩ =
        some (.ok .Or) ∧
      classify ⟨url, path, guid, some "", number, sn, sc, credits, "True"⟩ =
        some (.ok .Blank)) ∧
    (∀ e : RawCourseEntry, e.is_narrative = "False" →
      (sliceBraces e.guid.data).isSome →
      (e.number = none ∨ e.subject_code = none) →
      ∃ m, classify e = some (.error m)) := by
  constructor
  · intro url path guid number sn sc credits
    exact ⟨rfl, rfl, rfl⟩
  · intro e hnarr hs hmiss
    have hcls : classify e = classifyCourse e := by
      unfold classify
      cases hn : e.name with
      | none => rfl
      | some n => rw [hnarr]; rfl
    rw [hcls]
    exact classifyCourse_missing_field e hs hmiss

/-- C8 witness: the marker rule applied at a concrete entry, and the
missing-field rule applied at a concrete sliceable non-narrative entry
missing its `number`. -/
theorem C8_classifier_witness :
    (classify ⟨"u", "p", "g", some "And", none, none, none, "c", "True"⟩ =
        some (.ok .And) ∧
      classify ⟨"u", "p", "g", some "Or", none, none, none, "c", "True"⟩ =
        some (.ok .Or) ∧
      classify ⟨"u", "p", "g", some "", none, none, none, "c", "True"⟩ =
        some (.ok .Blank)) ∧
    (∃ m, classify ⟨"u", "p", "\x7b00000000000000000000000000000000\x7d",
      none, none, none, some "CS", "3", "False"⟩ = some (.error m)) :=
  ⟨C8_classifier_markers_and_missing_fields.1 "u" "p" "g" none none none "c",
    C8_classifier_markers_and_missing_fields.2
      ⟨"u", "p", "\x7b00000000000000000000000000000000\x7d",
        none, none, none, some "CS", "3", "False"⟩ rfl rfl (Or.inl rfl)⟩

/-- C9 counterexample: two of the claim's clauses fail on the code.
A 36-byte string whose last four characters are the non-hex letter `z`
parses successfully (the reader stops after 32 hex digits and never
examines the tail), against the claim that any in-bounds string with a
non-hex non-dash character yields `InvalidCharacter`; and a 16-character
string of 2-byte characters yields `InvalidCharacter`, against the claim
that every string shorter than 32 characters yields `TooShort` (the code
measures bytes, not characters). -/
theorem C9_counterexample :
    GUID.tryFrom (List.replicate 32 '0' ++ ['z', 'z', 'z', 'z']) =
      .ok ⟨List.replicate 16 0⟩ ∧
    (List.replicate 32 '0' ++ ['z', 'z', 'z', 'z']).length ≤ 36 ∧
    GUID.tryFrom (List.replicate 16 '£') = .error .InvalidCharacter ∧
    (List.replicate 16 '£').length < 32 := by
  refine ⟨?_, by simp, ?_, by simp⟩ <;> rfl

/-- C9 (amended): GUID parsing measured as the code measures — in UTF-8
bytes.  A 32-hex-digit string and its 8-4-4-4-12 hyphenated form parse to
the same 16-byte value; strings shorter than 32 bytes fail `TooShort`;
strings longer than 36 bytes fail `TooLong`; and a character that is
neither a hex digit nor `-` yields `InvalidCharacter` exactly when it is
reached before 32 hex digits have been accumulated (characters after the
32nd hex digit are never examined). -/
theorem C9_guid_parsing_amended :
    (∀ s : List Char, s.length = 32 → (∀ c ∈ s, (hex_to_num c).isSome) →
      GUID.tryFrom s = .ok ⟨pairBytes s⟩ ∧
      GUID.tryFrom (hyphenate s) = .ok ⟨pairBytes s⟩) ∧
    (∀ s : List Char, utf8Len s < 32 → GUID.tryFrom s = .error .TooShort) ∧
    (∀ s : List Char, 36 < utf8Len s → GUID.tryFrom s = .error .TooLong) ∧
    (∀ (pre : List Char) (c : Char) (rest : List Char),
      (∀ x ∈ pre, x = '-' ∨ (hex_to_num x).isSome) →
      hex_to_num c = none → c ≠ '-' →
      32 ≤ utf8Len (pre ++ c :: rest) → utf8Len (pre ++ c :: rest) ≤ 36 →
      hexCount pre < 32 →
      GUID.tryFrom (pre ++ c :: rest) = .error .InvalidCharacter) := by
  refine ⟨tryFrom_hex_and_hyphenated, ?_, ?_, ?_⟩
  · intro s h
    simp [GUID.tryFrom, h]
  · intro s h
    unfold GUID.tryFrom
    rw [if_neg (by omega), if_pos (by omega)]
  · intro pre c rest hmem hc hcd hge hle hcount
    have hread := readBytes_invalid c rest hc hcd 16 pre hmem (by omega)
    unfold GUID.tryFrom
    rw [if_neg (by omega), if_neg (by omega), hread]

/-- C9 witness: the amended statement applied at concrete inputs — the
all-zero 32-hex string and its hyphenated form, the empty string, a
37-digit string, and a leading invalid letter followed by 35 zeros. -/
theorem C9_guid_parsing_witness :
    (GUID.tryFrom (List.replicate 32 '0') = .ok ⟨pairBytes (List.replicate 32 '0')⟩ ∧
      GUID.tryFrom (hyphenate (List.replicate 32 '0')) =
        .ok ⟨pairBytes (List.replicate 32 '0')⟩) ∧
    GUID.tryFrom [] = .error .TooShort ∧
    GUID.tryFrom (List.replicate 37 '0') = .error .TooLong ∧
    GUID.tryFrom ([] ++ 'z' :: List.replicate 35 '0') = .error .InvalidCharacter :=
  ⟨C9_guid_parsing_amended.1 (List.replicate 32 '0') (by simp) (by decide),
    C9_guid_parsing_amended.2.1 [] (by decide),
    C9_guid_parsing_amended.2.2.1 (List.replicate 37 '0') (by decide),
    C9_guid_parsing_amended.2.2.2 [] 'z' (List.replicate 35 '0') (by simp)
      (by decide) (by decide) (by decide) (by decide) (by decide)⟩

/-- C10 counterexample: the string `"3-1"` is accepted by
`parse_course_credits` with value `(3, some 1)`, whose upper bound is
strictly below its lower bound — against the claim that accepted ranges
satisfy `upper ≥ lower`. -/
theorem C10_counterexample :
    parse_course_credits "3-1" = .ok (3, some 1) ∧ 1 < 3 := ⟨rfl, by omega⟩

/-- C10 (amended): every accepted credits string yields a lower bound that
is a non-negative integer fitting in a byte (and likewise any upper
bound), but no ordering between the bounds is enforced: `"3-1"` is
accepted as `(3, some 1)`. -/
theorem C10_credits_range_amended :
    (∀ (s : String) (r : Nat × Option Nat), parse_course_credits s = .ok r →
      r.1 ≤ 255 ∧ ∀ u, r.2 = some u → u ≤ 255) ∧
    parse_course_credits "3-1" = .ok (3, some 1) := by
  refine ⟨?_, rfl⟩
  intro s r h
  unfold parse_course_credits at h
  split at h
  · rename_i lower upper heq
    cases hlo : parseF32 lower with
    | none => rw [hlo] at h; exact absurd h (by simp)
    | some lv =>
      rw [hlo] at h
      cases hhi : parseF32 upper with
      | none => rw [hhi] at h; exact absurd h (by simp)
      | some uv =>
        rw [hhi] at h
        simp only [Except.ok.injEq] at h
        subst h
        exact ⟨floatToU8_le lv, fun u hu => by
          simp only [Option.some.injEq] at hu
          subst hu
          exact floatToU8_le uv⟩
  · cases hn : parseU8 s.data with
    | none => rw [hn] at h; exact absurd h (by simp)
    | some n =>
      rw [hn] at h
      simp only [Except.ok.injEq] at h
      subst h
      exact ⟨parseU8_le hn, fun u hu => by simp at hu⟩

/-- C10 witness: the bound statement applied at the accepted input
`"3-1"`. -/
theorem C10_credits_range_witness :
    (3 : Nat) ≤ 255 ∧ ∀ u : Nat, (some 1 : Option Nat) = some u → u ≤ 255 :=
  C10_credits_range_amended.1 "3-1" (3, some 1) C10_credits_range_amended.2

end Vislog
